import Mathlib

/-!
# ScrabbleHelper: the board request server (`index.js`)

A shallow embedding of `index.js`.  The program is event-driven glue code: the
request handler logs, spawns a subprocess and registers two callbacks; the
callbacks write to the HTTP response.  The embedding keeps that shape:

* the calls the program makes on its environment (`console.log`,
  `child_process.spawn`, `response.write`, `response.end`, `server.listen`)
  are recorded as a list of `Effect`s, in program order;
* `.on(name, callback)` registrations are recorded as a list of `Listener`s,
  and `emit` runs the listeners registered for an event, in registration
  order, as an event emitter does;
* the HTTP response is a small state machine (`Response`) that accumulates the
  bytes written until it is ended;
* the server process as a whole (`serverStep`, `serverRun`) handles the
  requests and the events of all their subprocesses in one event loop; there
  the calls name the response object they are made on, the registrations name
  the subprocess they are made on, and an `'error'` event without a listener
  stops the process.
-/

namespace ScrabbleHelper

/-! ## Values, effects, events -/

/-- JavaScript values that flow through the program: arguments of callbacks,
of `console.log` and of `response.write` / `response.end`.  Numbers are
restricted to integers; a `buffer` is a `Buffer` given by its bytes; `error`
is an `Error` object given by its message. -/
inductive JSValue where
  | undefined
  | null
  | boolean (b : Bool)
  | number (n : Int)
  | string (s : String)
  | buffer (bytes : List Nat)
  | error (message : String)
  deriving DecidableEq, Repr

/-- JavaScript truthiness, as used by `if (err)`. -/
def JSValue.truthy : JSValue → Bool
  | .undefined => false
  | .null => false
  | .boolean b => b
  | .number n => n != 0
  | .string s => s != ""
  | .buffer _ => true
  | .error _ => true

/-- The calls the program makes on its environment. -/
inductive Effect where
  | consoleLog (args : List JSValue)
  | spawn (command : String) (args : List String)
  | responseWrite (chunk : JSValue)
  | responseEnd (chunk : JSValue)
  | createServer
  | listen (port : Nat)
  deriving DecidableEq, Repr

/-- The two event emitters the handler subscribes to: `pythonProcess` and
`pythonProcess.stdout`. -/
inductive Emitter where
  | pythonProcess
  | stdout
  deriving DecidableEq, Repr

/-- An event delivered by the event loop: the emitter, the event name and the
arguments passed to the listeners. -/
structure Event where
  emitter : Emitter
  name : String
  args : List JSValue
  deriving DecidableEq, Repr

/-- A registration made with `emitter.on(name, callback)`. -/
structure Listener where
  emitter : Emitter
  name : String
  callback : List JSValue → List Effect

/-- The part of an incoming HTTP request that a handler could look at. -/
structure Request where
  url : String
  method : String
  headers : List (String × String)
  body : String
  deriving DecidableEq, Repr

/-! ## The program -/

/-- Line 5: `const port = 3000`. -/
def port : Nat := 3000

/-- Lines 8-21: `requestHandler`.  The first component is what the call does
before it returns (`console.log(request.url)`, then `child_process.spawn`);
the second is the listeners it registers: `function (data)` on
`pythonProcess.stdout` for `'data'`, and `function ()` on `pythonProcess` for
`'exit'`.  A missing first argument of the data callback is `undefined`. -/
def requestHandler (request : Request) : List Effect × List Listener :=
  ([ .consoleLog [.string request.url],
     .spawn "python3" ["scrabble_helper/score_hand.py", "print_board"] ],
   [ { emitter := .stdout, name := "data",
       callback := fun args => [.responseWrite (args.headD .undefined)] },
     { emitter := .pythonProcess, name := "exit",
       callback := fun _ =>
         [ .responseWrite (.string "\n\n"),
           .responseEnd (.string "An example scrabble board, above") ] } ])

/-- Lines 25-30: the callback passed to `server.listen`. -/
def listenCallback (err : JSValue) : List Effect :=
  if err.truthy then
    [.consoleLog [.string "something bad happened", err]]
  else
    [.consoleLog [.string ("server is listening on " ++ toString port)]]

/-- Lines 23-30: the top level of the module creates the server and calls
`server.listen(port, callback)`; the second component is the callback. -/
def main : List Effect × (JSValue → List Effect) :=
  ([.createServer, .listen port], listenCallback)

/-! ## The event emitter and one request's run -/

/-- Whether a listener was registered for this event. -/
def Listener.handles (l : Listener) (e : Event) : Bool :=
  l.emitter == e.emitter && l.name == e.name

/-- Emitting an event calls, in registration order, the listeners registered
for its emitter and name, with the event's arguments: this is the handler code
an event runs.  What an emitter does with an `'error'` event that has no
listener (it throws, and the process stops) concerns the whole process and is
part of `serverStep`. -/
def emit (listeners : List Listener) (e : Event) : List Effect :=
  (listeners.filter (fun l => l.handles e)).flatMap (fun l => l.callback e.args)

/-- The effects of delivering a sequence of events, in order. -/
def dispatch (listeners : List Listener) (events : List Event) : List Effect :=
  events.flatMap (emit listeners)

/-- Everything one request causes: the effects of the call to
`requestHandler`, then those of its callbacks as the events arrive. -/
def handle (request : Request) (events : List Event) : List Effect :=
  (requestHandler request).1 ++ dispatch (requestHandler request).2 events

/-- A chunk of bytes arriving on the subprocess's standard output. -/
def Event.stdoutData (chunk : List Nat) : Event :=
  { emitter := .stdout, name := "data", args := [.buffer chunk] }

/-- The subprocess has exited, with an exit code or a signal. -/
def Event.exit (code : Option Int) (signal : Option String) : Event :=
  { emitter := .pythonProcess, name := "exit",
    args := [code.elim .null .number, signal.elim .null .string] }

/-- The subprocess could not be spawned: `'error'` on `pythonProcess`. -/
def Event.spawnError (message : String) : Event :=
  { emitter := .pythonProcess, name := "error", args := [.error message] }

/-- Recognises the `'exit'` event of the subprocess. -/
def Event.isExit (e : Event) : Bool :=
  e.emitter == .pythonProcess && e.name == "exit"

/-- Recognises a `'data'` event of the subprocess's standard output. -/
def Event.isData (e : Event) : Bool :=
  e.emitter == .stdout && e.name == "data"

/-! ## The HTTP response -/

/-- UTF-8 encoding of one character. -/
def utf8Char (c : Char) : List Nat :=
  let n := c.toNat
  if n < 0x80 then [n]
  else if n < 0x800 then [0xC0 + n / 64, 0x80 + n % 64]
  else if n < 0x10000 then [0xE0 + n / 4096, 0x80 + n / 64 % 64, 0x80 + n % 64]
  else [0xF0 + n / 262144, 0x80 + n / 4096 % 64, 0x80 + n / 64 % 64, 0x80 + n % 64]

/-- UTF-8 encoding of a string: the bytes `response.write(string)` sends. -/
def utf8 (s : String) : List Nat :=
  s.toList.flatMap utf8Char

/-- The bytes a chunk passed to `response.write` / `response.end` stands for. -/
def chunkBytes : JSValue → List Nat
  | .buffer bytes => bytes
  | .string s => utf8 s
  | _ => []

/-- The state of an HTTP response: the body bytes sent so far and whether the
response has been finalized. -/
structure Response where
  body : List Nat
  finished : Bool
  deriving DecidableEq, Repr

/-- How one effect changes the response: `write` appends bytes, `end` appends
its bytes and finalizes; once finalized the body no longer changes. -/
def Response.step (r : Response) : Effect → Response
  | .responseWrite chunk =>
      if r.finished then r else { r with body := r.body ++ chunkBytes chunk }
  | .responseEnd chunk =>
      if r.finished then r
      else { body := r.body ++ chunkBytes chunk, finished := true }
  | _ => r

/-- The response after a sequence of effects, starting empty and open. -/
def responseOf (effects : List Effect) : Response :=
  effects.foldl Response.step { body := [], finished := false }

/-- Recognises `response.end`. -/
def Effect.isEnd : Effect → Bool
  | .responseEnd _ => true
  | _ => false

/-- Recognises `response.write`. -/
def Effect.isWrite : Effect → Bool
  | .responseWrite _ => true
  | _ => false

/-- Recognises `child_process.spawn`. -/
def Effect.isSpawn : Effect → Bool
  | .spawn _ _ => true
  | _ => false

/-- Recognises `console.log`. -/
def Effect.isLog : Effect → Bool
  | .consoleLog _ => true
  | _ => false

/-- The trailer string passed to `response.end`. -/
def trailer : String := "An example scrabble board, above"

/-- The events of a subprocess that writes the given chunks and then exits. -/
def chunksThenExit (chunks : List (List Nat)) (code : Option Int)
    (signal : Option String) : List Event :=
  chunks.map Event.stdoutData ++ [Event.exit code signal]

/-- The `response.write` calls that forward the given chunks unchanged. -/
def forwarded (chunks : List (List Nat)) : List Effect :=
  chunks.map (fun c => Effect.responseWrite (.buffer c))

/-- The two calls of the exit callback, lines 17 and 19. -/
def exitCalls : List Effect :=
  [Effect.responseWrite (.string "\n\n"), Effect.responseEnd (.string trailer)]

/-! ## The server: several requests in one process -/

/-- What the single event loop delivers to the server: an incoming HTTP
request, or an event of the subprocess numbered `child`.  Requests are numbered
from 0 in order of arrival; the response object handed to the handler of
request `k` is response `k`, and the subprocess that handler spawns is
subprocess `k`. -/
inductive ServerEvent where
  | request (request : Request)
  | subprocess (child : Nat) (event : Event)
  deriving DecidableEq, Repr

/-- Recognises an `'error'` event of a subprocess. -/
def ServerEvent.isError : ServerEvent → Bool
  | .request _ => false
  | .subprocess _ e => e.name == "error"

/-- A call made by the running server.  A call on a response names the
response object it is made on, so that a handler writing to the response of
another request can be told apart from one writing to its own. -/
inductive Call where
  | consoleLog (args : List JSValue)
  | spawn (command : String) (args : List String)
  | responseWrite (response : Nat) (chunk : JSValue)
  | responseEnd (response : Nat) (chunk : JSValue)
  deriving DecidableEq, Repr

/-- A registration `emitter.on(name, callback)` made on an emitter of the
subprocess numbered `child`. -/
structure Registration where
  child : Nat
  emitter : Emitter
  name : String
  callback : List JSValue → List Call

/-- Lines 8-21 once more, with the objects of the closures made explicit:
`response` is the response object passed to this call of the handler and
`pythonProcess` is the object `child_process.spawn` returns to it.  Both
callbacks are registered on emitters of `pythonProcess` and call
`response.write` / `response.end` on the captured `response`; there is no
variable shared between calls of the handler. -/
def requestHandlerOn (request : Request) (response pythonProcess : Nat) :
    List Call × List Registration :=
  ([ .consoleLog [.string request.url],
     .spawn "python3" ["scrabble_helper/score_hand.py", "print_board"] ],
   [ { child := pythonProcess, emitter := .stdout, name := "data",
       callback := fun args => [.responseWrite response (args.headD .undefined)] },
     { child := pythonProcess, emitter := .pythonProcess, name := "exit",
       callback := fun _ =>
         [ .responseWrite response (.string "\n\n"),
           .responseEnd response (.string "An example scrabble board, above") ] } ])

/-- The state of the server process: every registration made so far on the
emitters of the subprocesses, the number of requests received, and whether the
process has stopped on an uncaught exception. -/
structure Process where
  registrations : List Registration
  received : Nat
  crashed : Bool

/-- The process before the first request. -/
def Process.start : Process :=
  { registrations := [], received := 0, crashed := false }

/-- Whether a registration was made for this event of this subprocess. -/
def Registration.handles (l : Registration) (child : Nat) (e : Event) : Bool :=
  l.child == child && l.emitter == e.emitter && l.name == e.name

/-- Line 23, `http.createServer(requestHandler)`, and the event loop.  An
incoming request calls the handler with a fresh response and the subprocess it
spawns, and records its registrations.  A subprocess event calls the callbacks
registered for it, in order.  An `'error'` event for which no callback is
registered is thrown by the emitter: the exception is uncaught and the process
stops.  A stopped process handles nothing. -/
def serverStep (p : Process) : ServerEvent → List Call × Process
  | .request r =>
      if p.crashed then ([], p)
      else
        ((requestHandlerOn r p.received p.received).1,
         { p with
           registrations := p.registrations ++ (requestHandlerOn r p.received p.received).2,
           received := p.received + 1 })
  | .subprocess child e =>
      if p.crashed then ([], p)
      else if e.name == "error" &&
          (p.registrations.filter (fun l => l.handles child e)).isEmpty then
        ([], { p with crashed := true })
      else
        ((p.registrations.filter (fun l => l.handles child e)).flatMap
          (fun l => l.callback e.args), p)

/-- The calls of a sequence of server events, in order, and the final state. -/
def serverRun (p : Process) : List ServerEvent → List Call × Process
  | [] => ([], p)
  | ev :: rest =>
      ((serverStep p ev).1 ++ (serverRun (serverStep p ev).2 rest).1,
       (serverRun (serverStep p ev).2 rest).2)

/-- A call seen from response `id`: a write or end on that response, or nothing. -/
def Call.onResponse (id : Nat) : Call → Option Effect
  | .responseWrite r chunk => if r = id then some (.responseWrite chunk) else none
  | .responseEnd r chunk => if r = id then some (.responseEnd chunk) else none
  | _ => none

/-- The calls made on response `id`, in order. -/
def callsOn (id : Nat) (trace : List Call) : List Effect :=
  trace.filterMap (Call.onResponse id)

/-- Recognises `child_process.spawn` among the calls of the server. -/
def Call.isSpawn : Call → Bool
  | .spawn _ _ => true
  | _ => false

/-- A call with the identity of the response forgotten. -/
def Call.forget : Call → Effect
  | .consoleLog args => .consoleLog args
  | .spawn command args => .spawn command args
  | .responseWrite _ chunk => .responseWrite chunk
  | .responseEnd _ chunk => .responseEnd chunk

/-- The requests of an event sequence, in order of arrival. -/
def requestsOf (events : List ServerEvent) : List Request :=
  events.filterMap (fun ev =>
    match ev with
    | .request r => some r
    | .subprocess _ _ => none)

/-- The events of the subprocess of request `id`, in order. -/
def subprocessEvents (id : Nat) (events : List ServerEvent) : List Event :=
  events.filterMap (fun ev =>
    match ev with
    | .request _ => none
    | .subprocess j e => if j = id then some e else none)

/-- A subprocess event can only come from a subprocess that has been spawned:
with `n` requests received so far, its number is below `n`. -/
def wellFormed (n : Nat) : List ServerEvent → Bool
  | [] => true
  | .request _ :: rest => wellFormed (n + 1) rest
  | .subprocess id _ :: rest => decide (id < n) && wellFormed n rest

/-- The registrations the handler of request `k` makes; they do not depend on
the contents of the request. -/
def registrationsFor (k : Nat) : List Registration :=
  (requestHandlerOn { url := "", method := "", headers := [], body := "" } k k).2

/-! ## Basic lemmas -/

theorem emit_requestHandler (request : Request) (e : Event) :
    emit (requestHandler request).2 e =
      (if e.isData then [Effect.responseWrite (e.args.headD .undefined)] else []) ++
      (if e.isExit then
        [Effect.responseWrite (.string "\n\n"), Effect.responseEnd (.string trailer)]
       else []) := by
  rcases e with ⟨em, nm, args⟩
  cases em <;>
    by_cases h1 : nm = "data" <;> by_cases h2 : nm = "exit" <;>
    simp [emit, requestHandler, Listener.handles, Event.isData, Event.isExit, trailer,
      List.filter_cons, h1, h2] <;>
    try (intro h; exact absurd h.symm (by assumption))

theorem dispatch_nil (ls : List Listener) : dispatch ls [] = [] := rfl

theorem dispatch_cons (ls : List Listener) (e : Event) (es : List Event) :
    dispatch ls (e :: es) = emit ls e ++ dispatch ls es := by
  simp [dispatch]

theorem dispatch_append (ls : List Listener) (es fs : List Event) :
    dispatch ls (es ++ fs) = dispatch ls es ++ dispatch ls fs := by
  simp [dispatch]

theorem emit_stdoutData (request : Request) (c : List Nat) :
    emit (requestHandler request).2 (Event.stdoutData c) =
      [Effect.responseWrite (.buffer c)] := by
  rw [emit_requestHandler]; rfl

theorem emit_exit (request : Request) (code : Option Int) (signal : Option String) :
    emit (requestHandler request).2 (Event.exit code signal) = exitCalls := by
  rw [emit_requestHandler]; rfl

theorem emit_of_isExit (request : Request) (e : Event) (h : e.isExit = true) :
    emit (requestHandler request).2 e = exitCalls := by
  rw [emit_requestHandler]
  have hd : e.isData = false := by
    rcases e with ⟨em, nm, args⟩
    cases em <;> simp_all [Event.isData, Event.isExit]
  simp [h, hd, exitCalls]

theorem emit_noEnd (request : Request) (e : Event) (h : e.isExit = false) :
    ∀ eff ∈ emit (requestHandler request).2 e, eff.isEnd = false := by
  rw [emit_requestHandler]
  intro eff heff
  by_cases hd : e.isData = true <;> simp [h, hd] at heff
  subst heff; rfl

theorem dispatch_noEnd (request : Request) (events : List Event)
    (h : ∀ e ∈ events, e.isExit = false) :
    ∀ eff ∈ dispatch (requestHandler request).2 events, eff.isEnd = false := by
  induction events with
  | nil => intro eff heff; simp [dispatch] at heff
  | cons e es ih =>
    intro eff heff
    rw [dispatch_cons, List.mem_append] at heff
    rcases heff with heff | heff
    · exact emit_noEnd request e (h e (List.mem_cons_self _ _)) eff heff
    · exact ih (fun e' he' => h e' (List.mem_cons_of_mem _ he')) eff heff

theorem dispatch_stdoutData (request : Request) (chunks : List (List Nat)) :
    dispatch (requestHandler request).2 (chunks.map Event.stdoutData) = forwarded chunks := by
  induction chunks with
  | nil => rfl
  | cons c cs ih =>
    rw [List.map_cons, dispatch_cons, emit_stdoutData, ih]; rfl

theorem handle_chunksThenExit (request : Request) (chunks : List (List Nat))
    (code : Option Int) (signal : Option String) :
    handle request (chunksThenExit chunks code signal) =
      (requestHandler request).1 ++ forwarded chunks ++ exitCalls := by
  simp [handle, chunksThenExit, dispatch_append, dispatch_stdoutData, dispatch_cons,
    emit_exit, dispatch_nil]

theorem foldl_step_forwarded (chunks : List (List Nat)) (r : Response)
    (h : r.finished = false) :
    (forwarded chunks).foldl Response.step r =
      { body := r.body ++ chunks.flatten, finished := false } := by
  induction chunks generalizing r with
  | nil => cases r; simp_all [forwarded]
  | cons c cs ih =>
    simp only [forwarded, List.map_cons, List.foldl_cons] at ih ⊢
    rw [ih]
    · simp [Response.step, h, chunkBytes]
    · simp [Response.step, h]

theorem responseOf_handle (request : Request) (events : List Event) :
    responseOf (handle request events) =
      responseOf (dispatch (requestHandler request).2 events) := by
  simp [responseOf, handle, requestHandler, Response.step]

theorem responseOf_forwarded (chunks : List (List Nat)) :
    responseOf (forwarded chunks) = { body := chunks.flatten, finished := false } := by
  simp [responseOf, foldl_step_forwarded]

theorem countP_eq_one_split {α : Type} (p : α → Bool) :
    ∀ l : List α, l.countP p = 1 →
      ∃ pre x post, l = pre ++ x :: post ∧ p x = true ∧
        (∀ y ∈ pre, p y = false) ∧ (∀ y ∈ post, p y = false) := by
  intro l
  induction l with
  | nil => intro h; simp at h
  | cons a t ih =>
    intro h
    by_cases ha : p a = true
    · refine ⟨[], a, t, rfl, ha, by simp, ?_⟩
      rw [List.countP_cons_of_pos _ _ ha] at h
      have h0 : t.countP p = 0 := by omega
      intro y hy
      have := (List.countP_eq_zero.mp h0) y hy
      simpa using this
    · rw [List.countP_cons_of_neg _ _ ha] at h
      obtain ⟨pre, x, post, hl, hx, hpre, hpost⟩ := ih h
      refine ⟨a :: pre, x, post, by simp [hl], hx, ?_, hpost⟩
      intro y hy
      rcases List.mem_cons.mp hy with rfl | hy
      · simpa using ha
      · exact hpre y hy

theorem countP_isEnd_of_noEnd (l : List Effect) (h : ∀ eff ∈ l, eff.isEnd = false) :
    l.countP Effect.isEnd = 0 := by
  rw [List.countP_eq_zero]
  intro eff heff
  simp [h eff heff]

theorem requestHandler_noEnd (request : Request) :
    ∀ eff ∈ (requestHandler request).1, eff.isEnd = false := by
  intro eff heff
  simp [requestHandler] at heff
  rcases heff with rfl | rfl <;> rfl

theorem handle_noEnd (request : Request) (events : List Event)
    (h : ∀ e ∈ events, e.isExit = false) :
    ∀ eff ∈ handle request events, eff.isEnd = false := by
  intro eff heff
  rw [handle, List.mem_append] at heff
  rcases heff with heff | heff
  · exact requestHandler_noEnd request eff heff
  · exact dispatch_noEnd request events h eff heff

theorem foldl_step_noEnd (l : List Effect) (h : ∀ eff ∈ l, eff.isEnd = false)
    (r : Response) (hr : r.finished = false) :
    (l.foldl Response.step r).finished = false := by
  induction l generalizing r with
  | nil => simpa using hr
  | cons a t ih =>
    rw [List.foldl_cons]
    apply ih (fun eff heff => h eff (List.mem_cons_of_mem _ heff))
    have ha := h a (List.mem_cons_self _ _)
    cases a <;> simp_all [Response.step, Effect.isEnd]

theorem responseOf_chunksThenExit (request : Request) (chunks : List (List Nat))
    (code : Option Int) (signal : Option String) :
    responseOf (handle request (chunksThenExit chunks code signal)) =
      { body := chunks.flatten ++ utf8 "\n\n" ++ utf8 "An example scrabble board, above",
        finished := true } := by
  rw [responseOf_handle]
  simp only [chunksThenExit, dispatch_append, dispatch_stdoutData, dispatch_cons, emit_exit,
    dispatch_nil, List.append_nil, responseOf, List.foldl_append]
  rw [foldl_step_forwarded _ _ rfl]
  simp [exitCalls, Response.step, chunkBytes, trailer]

theorem emit_onlyResponse (request : Request) (e : Event) :
    ∀ eff ∈ emit (requestHandler request).2 e, eff.isSpawn = false ∧ eff.isLog = false := by
  rw [emit_requestHandler]
  intro eff heff
  by_cases hd : e.isData = true <;> by_cases hx : e.isExit = true <;>
    simp [hd, hx] at heff
  all_goals (rcases heff with rfl | rfl | rfl) <;> exact ⟨rfl, rfl⟩

theorem dispatch_onlyResponse (request : Request) (events : List Event) :
    ∀ eff ∈ dispatch (requestHandler request).2 events,
      eff.isSpawn = false ∧ eff.isLog = false := by
  induction events with
  | nil => intro eff heff; simp [dispatch] at heff
  | cons e es ih =>
    intro eff heff
    rw [dispatch_cons, List.mem_append] at heff
    rcases heff with heff | heff
    · exact emit_onlyResponse request e eff heff
    · exact ih eff heff

theorem requestHandlerOn_forget (request : Request) (response child : Nat) :
    (requestHandlerOn request response child).1.map Call.forget = (requestHandler request).1 ∧
      (requestHandlerOn request response child).2.map (fun l =>
        ({ emitter := l.emitter, name := l.name,
           callback := fun args => (l.callback args).map Call.forget } : Listener)) =
        (requestHandler request).2 :=
  ⟨rfl, rfl⟩

theorem registrationsFor_filter_ne (k child : Nat) (e : Event) (h : k ≠ child) :
    (registrationsFor k).filter (fun l => l.handles child e) = [] := by
  simp [registrationsFor, requestHandlerOn, Registration.handles, List.filter_cons, h]

theorem registrationsFor_filter_error (k child : Nat) (e : Event) (h : e.name = "error") :
    (registrationsFor k).filter (fun l => l.handles child e) = [] := by
  simp [registrationsFor, requestHandlerOn, Registration.handles, List.filter_cons, h]

theorem registrationsFor_calls (child : Nat) (e : Event) :
    ((registrationsFor child).filter (fun l => l.handles child e)).flatMap
        (fun l => l.callback e.args) =
      (if e.isData then [Call.responseWrite child (e.args.headD .undefined)] else []) ++
      (if e.isExit then
        [Call.responseWrite child (.string "\n\n"), Call.responseEnd child (.string trailer)]
       else []) := by
  rcases e with ⟨em, nm, args⟩
  cases em <;>
    by_cases h1 : nm = "data" <;> by_cases h2 : nm = "exit" <;>
    simp [registrationsFor, requestHandlerOn, Registration.handles, Event.isData,
      Event.isExit, trailer, List.filter_cons, h1, h2] <;>
    try (intro h; exact absurd h.symm (by assumption))

theorem filter_range_registrations (n child : Nat) (e : Event) :
    ((List.range n).flatMap registrationsFor).filter (fun l => l.handles child e) =
      if child < n then (registrationsFor child).filter (fun l => l.handles child e)
      else [] := by
  induction n with
  | zero => simp
  | succ n ih =>
    rw [List.range_succ, List.flatMap_append, List.filter_append, ih]
    simp only [List.flatMap_cons, List.flatMap_nil, List.append_nil]
    rcases Nat.lt_trichotomy child n with hlt | heq | hgt
    · rw [registrationsFor_filter_ne n child e (by omega)]
      simp [hlt, Nat.lt_succ_of_lt hlt]
    · subst heq
      simp
    · rw [registrationsFor_filter_ne n child e (by omega)]
      have h1 : ¬ child < n := by omega
      have h2 : ¬ child < n + 1 := by omega
      simp [h1, h2]

theorem callsOn_append (id : Nat) (a b : List Call) :
    callsOn id (a ++ b) = callsOn id a ++ callsOn id b := by
  simp [callsOn]

theorem callsOn_registrationsFor (id child : Nat) (e : Event) (request : Request) :
    callsOn id (((registrationsFor child).filter (fun l => l.handles child e)).flatMap
        (fun l => l.callback e.args)) =
      if child = id then emit (requestHandler request).2 e else [] := by
  rw [registrationsFor_calls, emit_requestHandler]
  by_cases hd : e.isData = true <;> by_cases hx : e.isExit = true <;>
    by_cases hc : child = id <;>
    simp [callsOn, Call.onResponse, hd, hx, hc]

theorem serverRun_cons (p : Process) (ev : ServerEvent) (rest : List ServerEvent) :
    serverRun p (ev :: rest) =
      ((serverStep p ev).1 ++ (serverRun (serverStep p ev).2 rest).1,
       (serverRun (serverStep p ev).2 rest).2) := rfl

theorem serverRun_append (a b : List ServerEvent) :
    ∀ p : Process, serverRun p (a ++ b) =
      ((serverRun p a).1 ++ (serverRun (serverRun p a).2 b).1,
       (serverRun (serverRun p a).2 b).2) := by
  induction a with
  | nil => intro p; simp [serverRun]
  | cons ev rest ih =>
    intro p
    rw [List.cons_append, serverRun_cons, ih, serverRun_cons]
    simp

theorem serverRun_crashed (events : List ServerEvent) :
    ∀ p : Process, p.crashed = true → serverRun p events = ([], p) := by
  induction events with
  | nil => intro p _; rfl
  | cons ev rest ih =>
    intro p hp
    have hstep : serverStep p ev = ([], p) := by
      cases ev <;> simp [serverStep, hp]
    rw [serverRun_cons, hstep, ih p hp]
    rfl

theorem serverStep_error (p : Process) (child : Nat) (e : Event)
    (hp : p.crashed = false)
    (hregs : p.registrations = (List.range p.received).flatMap registrationsFor)
    (he : e.name = "error") :
    serverStep p (ServerEvent.subprocess child e) = ([], { p with crashed := true }) := by
  have hnone : p.registrations.filter (fun l => l.handles child e) = [] := by
    rw [hregs, filter_range_registrations]
    split
    · exact registrationsFor_filter_error child child e he
    · rfl
  simp [serverStep, hp, he, hnone]

theorem serverStep_request (p : Process) (r : Request) (hp : p.crashed = false) :
    serverStep p (ServerEvent.request r) =
      ((requestHandlerOn r p.received p.received).1,
       { p with
         registrations := p.registrations ++ registrationsFor p.received,
         received := p.received + 1 }) := by
  simp [serverStep, hp, registrationsFor, requestHandlerOn]

theorem serverStep_subprocess (p : Process) (child : Nat) (e : Event)
    (hp : p.crashed = false)
    (hregs : p.registrations = (List.range p.received).flatMap registrationsFor)
    (hc : child < p.received) (he : ¬ e.name = "error") :
    serverStep p (ServerEvent.subprocess child e) =
      (((registrationsFor child).filter (fun l => l.handles child e)).flatMap
        (fun l => l.callback e.args), p) := by
  have hm : p.registrations.filter (fun l => l.handles child e) =
      (registrationsFor child).filter (fun l => l.handles child e) := by
    rw [hregs, filter_range_registrations, if_pos hc]
  simp [serverStep, hp, he, hm]

theorem serverRun_sound (events : List ServerEvent) :
    ∀ p : Process, p.crashed = false →
      p.registrations = (List.range p.received).flatMap registrationsFor →
      wellFormed p.received events = true →
      (∀ ev ∈ events, ev.isError = false) →
      (serverRun p events).2.crashed = false ∧
        (serverRun p events).2.received = p.received + (requestsOf events).length ∧
        (serverRun p events).2.registrations =
          (List.range (p.received + (requestsOf events).length)).flatMap registrationsFor ∧
        (∀ (id : Nat) (request : Request), callsOn id (serverRun p events).1 =
          dispatch (requestHandler request).2 (subprocessEvents id events)) ∧
        (serverRun p events).1.filter Call.isSpawn =
          List.replicate (requestsOf events).length
            (Call.spawn "python3" ["scrabble_helper/score_hand.py", "print_board"]) := by
  induction events with
  | nil =>
    intro p hp hregs _ _
    simp [serverRun, requestsOf, subprocessEvents, dispatch, callsOn, hp, hregs]
  | cons ev rest ih =>
    intro p hp hregs hwf hok
    have hok2 : ∀ ev' ∈ rest, ev'.isError = false :=
      fun ev' h => hok ev' (List.mem_cons_of_mem _ h)
    cases ev with
    | request r =>
      have hwf2 : wellFormed (p.received + 1) rest = true := by
        simpa [wellFormed] using hwf
      have hreq : requestsOf (ServerEvent.request r :: rest) = r :: requestsOf rest := by
        simp [requestsOf]
      have hregs2 : p.registrations ++ registrationsFor p.received =
          (List.range (p.received + 1)).flatMap registrationsFor := by
        rw [List.range_succ, List.flatMap_append, hregs]
        simp
      obtain ⟨h1, h2, h3, h4, h5⟩ := ih
        { p with
          registrations := p.registrations ++ registrationsFor p.received,
          received := p.received + 1 } hp hregs2 hwf2 hok2
      rw [serverRun_cons, serverStep_request p r hp, hreq]
      simp only [List.length_cons]
      refine ⟨h1, ?_, ?_, ?_, ?_⟩
      · rw [h2]; simp only []; omega
      · rw [h3]
        have : p.received + 1 + (requestsOf rest).length =
            p.received + ((requestsOf rest).length + 1) := by omega
        simp only [this]
      · intro id request
        have hsub : subprocessEvents id (ServerEvent.request r :: rest) =
            subprocessEvents id rest := by
          simp [subprocessEvents]
        rw [callsOn_append, h4 id request, hsub]
        simp [callsOn, requestHandlerOn, Call.onResponse]
      · rw [List.filter_append, h5, List.replicate_succ]
        simp [requestHandlerOn, Call.isSpawn]
    | subprocess child e =>
      have hc : child < p.received := by
        simp [wellFormed] at hwf; exact hwf.1
      have hwf2 : wellFormed p.received rest = true := by
        simp [wellFormed] at hwf; exact hwf.2
      have he : ¬ e.name = "error" := by
        have := hok (ServerEvent.subprocess child e) (List.mem_cons_self _ _)
        simpa [ServerEvent.isError] using this
      have hreq : requestsOf (ServerEvent.subprocess child e :: rest) = requestsOf rest := by
        simp [requestsOf]
      obtain ⟨h1, h2, h3, h4, h5⟩ := ih p hp hregs hwf2 hok2
      rw [serverRun_cons, serverStep_subprocess p child e hp hregs hc he, hreq]
      refine ⟨h1, h2, h3, ?_, ?_⟩
      · intro id request
        rw [callsOn_append, h4 id request, callsOn_registrationsFor id child e request]
        by_cases hci : child = id
        · subst hci
          simp [subprocessEvents, dispatch_cons]
        · simp [subprocessEvents, hci]
      · rw [List.filter_append, h5, registrationsFor_calls]
        by_cases hd : e.isData = true <;> by_cases hx : e.isExit = true <;>
          simp [hd, hx, Call.isSpawn]

/-! ## The claims -/

/-- C1: for every request and every sequence of stdout chunks followed by one
exit event, the response body is the chunks concatenated in order, then two
newlines, then the trailer, and the response is finalized; in particular the
single chunk "BOARD\n" gives "BOARD\n\n\nAn example scrabble board, above" and
no chunk gives "\n\nAn example scrabble board, above". -/
theorem C1_response_body (request : Request) (chunks : List (List Nat))
    (code : Option Int) (signal : Option String) :
    responseOf (handle request (chunksThenExit chunks code signal)) =
        { body := chunks.flatten ++ utf8 "\n\n" ++ utf8 "An example scrabble board, above",
          finished := true } ∧
      (responseOf (handle request (chunksThenExit [utf8 "BOARD\n"] code signal))).body =
        utf8 "BOARD\n\n\nAn example scrabble board, above" ∧
      (responseOf (handle request (chunksThenExit [] code signal))).body =
        utf8 "\n\nAn example scrabble board, above" := by
  refine ⟨responseOf_chunksThenExit request chunks code signal, ?_, ?_⟩
  · rw [responseOf_chunksThenExit]; decide
  · rw [responseOf_chunksThenExit]; decide

/-- C2: as long as no exit event has been handled (any number of data or other
events, including none), the handler has issued no `response.end` and the
response is not finalized; the only listener whose callback issues
`response.end` is the one registered for the exit event of the subprocess. -/
theorem C2_no_end_before_exit (request : Request) (events : List Event)
    (h : ∀ e ∈ events, e.isExit = false) :
    (∀ eff ∈ handle request events, eff.isEnd = false) ∧
      (responseOf (handle request events)).finished = false ∧
      (∀ l ∈ (requestHandler request).2, ∀ args : List JSValue,
        (∃ eff ∈ l.callback args, eff.isEnd = true) →
          l.emitter = Emitter.pythonProcess ∧ l.name = "exit") := by
  refine ⟨handle_noEnd request events h, ?_, ?_⟩
  · exact foldl_step_noEnd _ (handle_noEnd request events h) _ rfl
  · intro l hl args hend
    simp only [requestHandler, List.mem_cons, List.mem_singleton, List.not_mem_nil,
      or_false] at hl
    rcases hl with rfl | rfl
    · obtain ⟨eff, heff, he⟩ := hend
      simp at heff
      subst heff
      simp [Effect.isEnd] at he
    · exact ⟨rfl, rfl⟩

/-- C2 at a concrete run: two data events and a spawn error, no exit. -/
theorem C2_no_end_before_exit_witness :
    (∀ e ∈ [Event.stdoutData [66], Event.spawnError "ENOENT", Event.stdoutData [10]],
      e.isExit = false) ∧
    (∀ eff ∈ handle ⟨"/", "GET", [], ""⟩
        [Event.stdoutData [66], Event.spawnError "ENOENT", Event.stdoutData [10]],
      eff.isEnd = false) ∧
    (responseOf (handle ⟨"/", "GET", [], ""⟩
        [Event.stdoutData [66], Event.spawnError "ENOENT", Event.stdoutData [10]])).finished
      = false :=
  ⟨by decide,
   (C2_no_end_before_exit ⟨"/", "GET", [], ""⟩
      [Event.stdoutData [66], Event.spawnError "ENOENT", Event.stdoutData [10]]
      (by decide)).1,
   (C2_no_end_before_exit ⟨"/", "GET", [], ""⟩
      [Event.stdoutData [66], Event.spawnError "ENOENT", Event.stdoutData [10]]
      (by decide)).2.1⟩

/-- C3: in every event sequence of one request that contains the exit event
exactly once, the handler issues exactly one `response.end`; its argument is
the trailer, the call right before it is the write of two newlines, and the
response ends up finalized. -/
theorem C3_end_exactly_once (request : Request) (events : List Event)
    (h : events.countP Event.isExit = 1) :
    (handle request events).countP Effect.isEnd = 1 ∧
      (∃ before after,
        handle request events =
          before ++ [Effect.responseWrite (.string "\n\n"),
            Effect.responseEnd (.string "An example scrabble board, above")] ++ after ∧
        (∀ eff ∈ before, eff.isEnd = false) ∧ (∀ eff ∈ after, eff.isEnd = false)) ∧
      (responseOf (handle request events)).finished = true := by
  obtain ⟨pre, x, post, hl, hx, hpre, hpost⟩ := countP_eq_one_split Event.isExit events h
  have hb := handle_noEnd request pre hpre
  have ha := dispatch_noEnd request post hpost
  have hsplit : handle request events =
      handle request pre ++ [Effect.responseWrite (.string "\n\n"),
        Effect.responseEnd (.string "An example scrabble board, above")] ++
        dispatch (requestHandler request).2 post := by
    subst hl
    simp [handle, dispatch_append, dispatch_cons, emit_of_isExit request x hx, exitCalls,
      trailer]
  refine ⟨?_, ⟨_, _, hsplit, hb, ha⟩, ?_⟩
  · rw [hsplit, List.countP_append, List.countP_append, countP_isEnd_of_noEnd _ hb,
      countP_isEnd_of_noEnd _ ha]
    rfl
  · rw [hsplit, responseOf, List.foldl_append, List.foldl_append]
    have hopen := foldl_step_noEnd _ hb { body := [], finished := false } rfl
    have hfin : ∀ (l : List Effect) (r : Response), r.finished = true →
        (l.foldl Response.step r).finished = true := by
      intro l
      induction l with
      | nil => intro r hr; simpa using hr
      | cons a t ih =>
        intro r hr
        rw [List.foldl_cons]
        apply ih
        cases a <;> simp [Response.step, hr]
    apply hfin
    simp [Response.step, hopen]

/-- C3 at a concrete run: a chunk, the exit, and a late chunk. -/
theorem C3_end_exactly_once_witness :
    [Event.stdoutData [66], Event.exit (some 0) none, Event.stdoutData [10]].countP
        Event.isExit = 1 ∧
      (handle ⟨"/", "GET", [], ""⟩
        [Event.stdoutData [66], Event.exit (some 0) none, Event.stdoutData [10]]).countP
          Effect.isEnd = 1 :=
  ⟨by decide,
   (C3_end_exactly_once ⟨"/", "GET", [], ""⟩
      [Event.stdoutData [66], Event.exit (some 0) none, Event.stdoutData [10]]
      (by decide)).1⟩

/-- C4: the exit code and signal do not influence the response: two runs that
receive the same chunks and then an exit event with arbitrary, possibly
different, codes or signals issue the same sequence of calls and produce the
same response; the chunk "ERR" followed by exit code 1 gives the body
"ERR\n\nAn example scrabble board, above". -/
theorem C4_exit_status_ignored (request : Request) (chunks : List (List Nat))
    (code₁ code₂ : Option Int) (signal₁ signal₂ : Option String) :
    handle request (chunksThenExit chunks code₁ signal₁) =
        handle request (chunksThenExit chunks code₂ signal₂) ∧
      responseOf (handle request (chunksThenExit chunks code₁ signal₁)) =
        responseOf (handle request (chunksThenExit chunks code₂ signal₂)) ∧
      responseOf (handle request (chunksThenExit [utf8 "ERR"] (some 1) none)) =
        { body := utf8 "ERR\n\nAn example scrabble board, above", finished := true } := by
  have e : handle request (chunksThenExit chunks code₁ signal₁) =
      handle request (chunksThenExit chunks code₂ signal₂) := by
    rw [handle_chunksThenExit, handle_chunksThenExit]
  refine ⟨e, by rw [e], ?_⟩
  rw [responseOf_chunksThenExit]
  decide

/-- C6: output is streamed chunk by chunk: once the first `k` chunks have been
delivered (and no exit yet), the handler has issued exactly `k`
`response.write` calls, their arguments are those `k` chunks unchanged and in
order, the bytes written so far are their concatenation, the response is still
open, and these calls are a prefix of what the complete run issues. -/
theorem C6_streamed_per_chunk (request : Request) (chunks : List (List Nat)) (k : Nat)
    (hk : k ≤ chunks.length) (code : Option Int) (signal : Option String) :
    (handle request ((chunks.take k).map Event.stdoutData)).filter Effect.isWrite =
        (chunks.take k).map (fun c => Effect.responseWrite (.buffer c)) ∧
      (handle request ((chunks.take k).map Event.stdoutData)).countP Effect.isWrite = k ∧
      responseOf (handle request ((chunks.take k).map Event.stdoutData)) =
        { body := (chunks.take k).flatten, finished := false } ∧
      ∃ rest, handle request (chunksThenExit chunks code signal) =
        handle request ((chunks.take k).map Event.stdoutData) ++ rest := by
  have hw : ∀ cs : List (List Nat), (forwarded cs).filter Effect.isWrite = forwarded cs := by
    intro cs
    rw [List.filter_eq_self]
    intro eff heff
    simp only [forwarded, List.mem_map] at heff
    obtain ⟨c, _, rfl⟩ := heff
    rfl
  have hf : (handle request ((chunks.take k).map Event.stdoutData)).filter Effect.isWrite =
      forwarded (chunks.take k) := by
    rw [handle, dispatch_stdoutData, List.filter_append, hw]
    simp [requestHandler, Effect.isWrite]
  refine ⟨hf, ?_, ?_, ?_⟩
  · rw [List.countP_eq_length_filter, hf]
    simp [forwarded, hk]
  · rw [responseOf_handle, dispatch_stdoutData, responseOf_forwarded]
  · refine ⟨forwarded (chunks.drop k) ++ exitCalls, ?_⟩
    rw [handle_chunksThenExit, handle, dispatch_stdoutData]
    simp only [forwarded, List.append_assoc]
    rw [← List.append_assoc (List.map _ (List.take k chunks)), ← List.map_append,
      List.take_append_drop]

/-- C6 at a concrete run: two of three chunks delivered. -/
theorem C6_streamed_per_chunk_witness :
    2 ≤ [[66, 79], [65], [10]].length ∧
      (handle ⟨"/", "GET", [], ""⟩
        (([[66, 79], [65], [10]].take 2).map Event.stdoutData)).filter Effect.isWrite =
        [Effect.responseWrite (.buffer [66, 79]), Effect.responseWrite (.buffer [65])] :=
  ⟨by decide,
   (C6_streamed_per_chunk ⟨"/", "GET", [], ""⟩ [[66, 79], [65], [10]] 2 (by decide)
      (some 0) none).1⟩

/-- C5: whatever the request, the call to `requestHandler` logs `request.url`
once and then spawns `python3` with the arguments
`scrabble_helper/score_hand.py` and `print_board`; over the whole run of the
request this is the only spawn and the only logged line; two requests given
the same subprocess events issue the same calls apart from the logged line and
produce the same response. -/
theorem C5_fixed_spawn (request₁ request₂ : Request) (events : List Event) :
    (requestHandler request₁).1 =
        [Effect.consoleLog [.string request₁.url],
          Effect.spawn "python3" ["scrabble_helper/score_hand.py", "print_board"]] ∧
      (handle request₁ events).filter Effect.isSpawn =
        [Effect.spawn "python3" ["scrabble_helper/score_hand.py", "print_board"]] ∧
      (handle request₁ events).filter Effect.isLog =
        [Effect.consoleLog [.string request₁.url]] ∧
      (handle request₁ events).filter (fun eff => !eff.isLog) =
        (handle request₂ events).filter (fun eff => !eff.isLog) ∧
      responseOf (handle request₁ events) = responseOf (handle request₂ events) := by
  have hs : ∀ r : Request, (dispatch (requestHandler r).2 events).filter Effect.isSpawn = [] := by
    intro r
    rw [List.filter_eq_nil_iff]
    intro eff heff
    simp [(dispatch_onlyResponse r events eff heff).1]
  have hl : ∀ r : Request, (dispatch (requestHandler r).2 events).filter Effect.isLog = [] := by
    intro r
    rw [List.filter_eq_nil_iff]
    intro eff heff
    simp [(dispatch_onlyResponse r events eff heff).2]
  have hsame : (requestHandler request₁).2 = (requestHandler request₂).2 := rfl
  refine ⟨rfl, ?_, ?_, ?_, ?_⟩
  · rw [handle, List.filter_append, hs]; rfl
  · rw [handle, List.filter_append, hl]; rfl
  · rw [handle, handle, List.filter_append, List.filter_append, hsame]; rfl
  · rw [responseOf_handle, responseOf_handle, hsame]

/-- C9: the server listens on port 3000, and the listen callback logs exactly
one message: for a truthy `err` it logs 'something bad happened' with `err` and
not the listening message; otherwise, in particular when `err` is absent, it
logs "server is listening on 3000" and no error message. -/
theorem C9_listen_callback (err : JSValue) :
    port = 3000 ∧ main.1 = [Effect.createServer, Effect.listen 3000] ∧
      (main.2 err).length = 1 ∧
      (err.truthy = true →
        main.2 err = [Effect.consoleLog [.string "something bad happened", err]] ∧
        Effect.consoleLog [.string "server is listening on 3000"] ∉ main.2 err) ∧
      (err.truthy = false →
        main.2 err = [Effect.consoleLog [.string "server is listening on 3000"]] ∧
        ∀ args, Effect.consoleLog (.string "something bad happened" :: args) ∉ main.2 err) ∧
      main.2 .undefined = [Effect.consoleLog [.string "server is listening on 3000"]] := by
  have hmsg : "server is listening on " ++ toString port = "server is listening on 3000" := by
    decide
  refine ⟨rfl, rfl, ?_, ?_, ?_, ?_⟩
  · simp only [main, listenCallback]; split <;> rfl
  · intro h
    simp [main, listenCallback, h]
  · intro h
    simp only [main, listenCallback, h, hmsg]
    simp
  · simp only [main, listenCallback, JSValue.truthy, hmsg]
    simp

/-- C9 at concrete arguments: a bind error object, and a falsy zero. -/
theorem C9_listen_callback_witness :
    main.2 (.error "listen EADDRINUSE") =
        [Effect.consoleLog [.string "something bad happened", .error "listen EADDRINUSE"]] ∧
      main.2 (.number 0) = [Effect.consoleLog [.string "server is listening on 3000"]] :=
  ⟨((C9_listen_callback (.error "listen EADDRINUSE")).2.2.2.1 (by decide)).1,
   ((C9_listen_callback (.number 0)).2.2.2.2.1 (by decide)).1⟩

/-- C10: the handler does not enforce that data precedes exit: when a data
event with chunk `d` is delivered after the exit event, the handler still
issues `response.write(d)`, after `response.end`; the calls are the forwarded
chunks, the write of two newlines, the end with the trailer, then the write of
`d`; the body that ended with the trailer does not contain `d`, so for a
non-empty `d` it differs from all the bytes the subprocess produced followed by
the two newlines and the trailer. -/
theorem C10_data_after_exit (request : Request) (chunks : List (List Nat)) (d : List Nat)
    (code : Option Int) (signal : Option String) :
    handle request (chunksThenExit chunks code signal ++ [Event.stdoutData d]) =
        (requestHandler request).1 ++
          chunks.map (fun c => Effect.responseWrite (.buffer c)) ++
          [Effect.responseWrite (.string "\n\n"),
            Effect.responseEnd (.string "An example scrabble board, above"),
            Effect.responseWrite (.buffer d)] ∧
      responseOf (handle request (chunksThenExit chunks code signal ++ [Event.stdoutData d])) =
        { body := chunks.flatten ++ utf8 "\n\n" ++ utf8 "An example scrabble board, above",
          finished := true } ∧
      (d ≠ [] →
        (responseOf (handle request
            (chunksThenExit chunks code signal ++ [Event.stdoutData d]))).body ≠
          (chunks ++ [d]).flatten ++ utf8 "\n\n" ++
            utf8 "An example scrabble board, above") := by
  have htrace : handle request (chunksThenExit chunks code signal ++ [Event.stdoutData d]) =
      handle request (chunksThenExit chunks code signal) ++
        [Effect.responseWrite (.buffer d)] := by
    simp [handle, dispatch_append, dispatch_cons, emit_stdoutData, dispatch_nil]
  have hresp : responseOf (handle request
      (chunksThenExit chunks code signal ++ [Event.stdoutData d])) =
        { body := chunks.flatten ++ utf8 "\n\n" ++ utf8 "An example scrabble board, above",
          finished := true } := by
    rw [htrace, responseOf, List.foldl_append]
    have h := responseOf_chunksThenExit request chunks code signal
    rw [responseOf] at h
    rw [h]
    rfl
  refine ⟨?_, hresp, ?_⟩
  · rw [htrace, handle_chunksThenExit]
    simp [forwarded, exitCalls, trailer]
  · intro hd heq
    rw [hresp] at heq
    have hlen := congrArg List.length heq
    simp at hlen
    exact hd hlen

/-- C10 at a concrete run: one chunk, the exit, then a late chunk. -/
theorem C10_data_after_exit_witness :
    ([33] : List Nat) ≠ [] ∧
      (responseOf (handle ⟨"/", "GET", [], ""⟩
          (chunksThenExit [[66]] (some 0) none ++ [Event.stdoutData [33]]))).body ≠
        ([[66]] ++ [[33]]).flatten ++ utf8 "\n\n" ++
          utf8 "An example scrabble board, above" :=
  ⟨by decide,
   (C10_data_after_exit ⟨"/", "GET", [], ""⟩ [[66]] [33] (some 0) none).2.2 (by decide)⟩

/-- C7 refuted as stated: two requests are in flight; the subprocess of the
first writes a chunk and exits, but between the two the subprocess of the
second fails to launch (an error event).  The error is uncaught and the
process stops, so the first response holds its chunk only: no newlines, no
trailer, never ended. -/
theorem C7_launch_failure_counterexample :
    wellFormed 0
        [ServerEvent.request ⟨"/a", "GET", [], ""⟩, ServerEvent.request ⟨"/b", "GET", [], ""⟩,
          ServerEvent.subprocess 0 (Event.stdoutData [65]),
          ServerEvent.subprocess 1 (Event.spawnError "spawn python3 EAGAIN"),
          ServerEvent.subprocess 0 (Event.exit (some 0) none)] = true ∧
      subprocessEvents 0
        [ServerEvent.request ⟨"/a", "GET", [], ""⟩, ServerEvent.request ⟨"/b", "GET", [], ""⟩,
          ServerEvent.subprocess 0 (Event.stdoutData [65]),
          ServerEvent.subprocess 1 (Event.spawnError "spawn python3 EAGAIN"),
          ServerEvent.subprocess 0 (Event.exit (some 0) none)] =
        chunksThenExit [[65]] (some 0) none ∧
      responseOf (callsOn 0 (serverRun Process.start
        [ServerEvent.request ⟨"/a", "GET", [], ""⟩, ServerEvent.request ⟨"/b", "GET", [], ""⟩,
          ServerEvent.subprocess 0 (Event.stdoutData [65]),
          ServerEvent.subprocess 1 (Event.spawnError "spawn python3 EAGAIN"),
          ServerEvent.subprocess 0 (Event.exit (some 0) none)]).1) =
        { body := [65], finished := false } ∧
      responseOf (callsOn 0 (serverRun Process.start
        [ServerEvent.request ⟨"/a", "GET", [], ""⟩, ServerEvent.request ⟨"/b", "GET", [], ""⟩,
          ServerEvent.subprocess 0 (Event.stdoutData [65]),
          ServerEvent.subprocess 1 (Event.spawnError "spawn python3 EAGAIN"),
          ServerEvent.subprocess 0 (Event.exit (some 0) none)]).1) ≠
        { body := [[65]].flatten ++ utf8 "\n\n" ++ utf8 "An example scrabble board, above",
          finished := true } := by
  decide

/-- C7 as amended: for any interleaving, in the single event loop, of incoming
requests and events of their subprocesses in which no subprocess emits an
error event, one subprocess is spawned per request (N requests give N spawns);
the calls made on the response of a request are exactly those its own
subprocess's events cause in a run of `requestHandler` on that request alone;
so a request whose subprocess writes some chunks and exits gets the body made
of its own chunks, in order, then two newlines and the trailer, whatever the
other subprocesses produce. -/
theorem C7_concurrent_requests (events : List ServerEvent)
    (hwf : wellFormed 0 events = true) (hok : ∀ ev ∈ events, ev.isError = false) :
    (serverRun Process.start events).1.filter Call.isSpawn =
        List.replicate (requestsOf events).length
          (Call.spawn "python3" ["scrabble_helper/score_hand.py", "print_board"]) ∧
      (∀ (id : Nat) (request : Request), (requestsOf events)[id]? = some request →
        callsOn id (serverRun Process.start events).1 =
          dispatch (requestHandler request).2 (subprocessEvents id events)) ∧
      (∀ (id : Nat) (request : Request) (chunks : List (List Nat)) (code : Option Int)
          (signal : Option String),
        (requestsOf events)[id]? = some request →
        subprocessEvents id events = chunksThenExit chunks code signal →
        responseOf (callsOn id (serverRun Process.start events).1) =
          { body := chunks.flatten ++ utf8 "\n\n" ++ utf8 "An example scrabble board, above",
            finished := true }) := by
  obtain ⟨_, _, _, hiso, hspawn⟩ := serverRun_sound events Process.start rfl rfl hwf hok
  refine ⟨hspawn, fun id request _ => hiso id request, ?_⟩
  intro id request chunks code signal _ hsub
  rw [hiso id request, hsub, ← responseOf_handle, responseOf_chunksThenExit]

/-- C7 as amended, at a concrete run: two requests whose subprocess events are
interleaved; each response holds only its own chunks and the trailer. -/
theorem C7_concurrent_requests_witness :
    (wellFormed 0
        [ServerEvent.request ⟨"/a", "GET", [], ""⟩, ServerEvent.request ⟨"/b", "GET", [], ""⟩,
          ServerEvent.subprocess 0 (Event.stdoutData [65]),
          ServerEvent.subprocess 1 (Event.stdoutData [66]),
          ServerEvent.subprocess 1 (Event.exit (some 0) none),
          ServerEvent.subprocess 0 (Event.stdoutData [67]),
          ServerEvent.subprocess 0 (Event.exit (some 0) none)] = true ∧
      ∀ ev ∈
        [ServerEvent.request ⟨"/a", "GET", [], ""⟩, ServerEvent.request ⟨"/b", "GET", [], ""⟩,
          ServerEvent.subprocess 0 (Event.stdoutData [65]),
          ServerEvent.subprocess 1 (Event.stdoutData [66]),
          ServerEvent.subprocess 1 (Event.exit (some 0) none),
          ServerEvent.subprocess 0 (Event.stdoutData [67]),
          ServerEvent.subprocess 0 (Event.exit (some 0) none)], ev.isError = false) ∧
      responseOf (callsOn 0 (serverRun Process.start
        [ServerEvent.request ⟨"/a", "GET", [], ""⟩, ServerEvent.request ⟨"/b", "GET", [], ""⟩,
          ServerEvent.subprocess 0 (Event.stdoutData [65]),
          ServerEvent.subprocess 1 (Event.stdoutData [66]),
          ServerEvent.subprocess 1 (Event.exit (some 0) none),
          ServerEvent.subprocess 0 (Event.stdoutData [67]),
          ServerEvent.subprocess 0 (Event.exit (some 0) none)]).1) =
        { body := [[65], [67]].flatten ++ utf8 "\n\n" ++
            utf8 "An example scrabble board, above",
          finished := true } ∧
      responseOf (callsOn 1 (serverRun Process.start
        [ServerEvent.request ⟨"/a", "GET", [], ""⟩, ServerEvent.request ⟨"/b", "GET", [], ""⟩,
          ServerEvent.subprocess 0 (Event.stdoutData [65]),
          ServerEvent.subprocess 1 (Event.stdoutData [66]),
          ServerEvent.subprocess 1 (Event.exit (some 0) none),
          ServerEvent.subprocess 0 (Event.stdoutData [67]),
          ServerEvent.subprocess 0 (Event.exit (some 0) none)]).1) =
        { body := [[66]].flatten ++ utf8 "\n\n" ++ utf8 "An example scrabble board, above",
          finished := true } :=
  ⟨⟨by decide, by decide⟩,
   (C7_concurrent_requests _ (by decide) (by decide)).2.2 0 ⟨"/a", "GET", [], ""⟩
      [[65], [67]] (some 0) none (by decide) (by decide),
   (C7_concurrent_requests _ (by decide) (by decide)).2.2 1 ⟨"/b", "GET", [], ""⟩
      [[66]] (some 0) none (by decide) (by decide)⟩

/-- C8 refuted as stated: a request arrives and its subprocess fails to launch
(an error event, no exit event).  The server has made the log and the spawn
and nothing else: no `response.end` on the response of the request; the error
was uncaught and the process has stopped. -/
theorem C8_launch_failure_counterexample :
    (serverRun Process.start
        [ServerEvent.request ⟨"/", "GET", [], ""⟩,
          ServerEvent.subprocess 0 (Event.spawnError "spawn python3 ENOENT")]).1 =
        [Call.consoleLog [.string "/"],
          Call.spawn "python3" ["scrabble_helper/score_hand.py", "print_board"]] ∧
      (callsOn 0 (serverRun Process.start
        [ServerEvent.request ⟨"/", "GET", [], ""⟩,
          ServerEvent.subprocess 0 (Event.spawnError "spawn python3 ENOENT")]).1).countP
        Effect.isEnd = 0 ∧
      (serverRun Process.start
        [ServerEvent.request ⟨"/", "GET", [], ""⟩,
          ServerEvent.subprocess 0 (Event.spawnError "spawn python3 ENOENT")]).2.crashed
        = true := by
  decide

/-- C8 as amended: the handler registers no listener for the error event of
its subprocess.  When a subprocess emits an error event and has emitted no exit
event, the error is uncaught: no call is issued for it or after it, the calls
on the response of that request are only those its earlier events caused, and
no `response.end` is ever issued on it. -/
theorem C8_launch_error_uncaught (pre post : List ServerEvent) (child : Nat)
    (message : String) (request : Request)
    (hwf : wellFormed 0 pre = true) (hok : ∀ ev ∈ pre, ev.isError = false)
    (hnoexit : ∀ e ∈ subprocessEvents child pre, e.isExit = false) :
    (∀ (response : Nat), ∀ l ∈ (requestHandlerOn request response child).2,
        l.handles child (Event.spawnError message) = false) ∧
      (serverRun Process.start
        (pre ++ ServerEvent.subprocess child (Event.spawnError message) :: post)).1 =
        (serverRun Process.start pre).1 ∧
      (serverRun Process.start
        (pre ++ ServerEvent.subprocess child (Event.spawnError message) :: post)).2.crashed
        = true ∧
      callsOn child (serverRun Process.start
        (pre ++ ServerEvent.subprocess child (Event.spawnError message) :: post)).1 =
        dispatch (requestHandler request).2 (subprocessEvents child pre) ∧
      (∀ eff ∈ callsOn child (serverRun Process.start
        (pre ++ ServerEvent.subprocess child (Event.spawnError message) :: post)).1,
        eff.isEnd = false) := by
  obtain ⟨hc, _, hregs, hiso, _⟩ := serverRun_sound pre Process.start rfl rfl hwf hok
  have hrecv : (serverRun Process.start pre).2.received =
      Process.start.received + (requestsOf pre).length := by
    exact (serverRun_sound pre Process.start rfl rfl hwf hok).2.1
  have hstep := serverStep_error (serverRun Process.start pre).2 child
    (Event.spawnError message) hc (by rw [hregs, hrecv]) rfl
  have hrun : serverRun Process.start
      (pre ++ ServerEvent.subprocess child (Event.spawnError message) :: post) =
      ((serverRun Process.start pre).1,
       { (serverRun Process.start pre).2 with crashed := true }) := by
    rw [serverRun_append, serverRun_cons, hstep, serverRun_crashed post _ rfl]
    simp
  have hcalls : callsOn child (serverRun Process.start
      (pre ++ ServerEvent.subprocess child (Event.spawnError message) :: post)).1 =
      dispatch (requestHandler request).2 (subprocessEvents child pre) := by
    rw [hrun]; exact hiso child request
  refine ⟨?_, by rw [hrun], by rw [hrun], hcalls, ?_⟩
  · intro response l hl
    simp only [requestHandlerOn, List.mem_cons, List.mem_singleton, List.not_mem_nil,
      or_false] at hl
    rcases hl with rfl | rfl <;>
      simp [Registration.handles, Event.spawnError]
  · rw [hcalls]
    exact dispatch_noEnd request _ hnoexit

/-- C8 as amended, at a concrete run: two requests in flight, the subprocess
of the first fails to launch; nothing is ever issued on its response, and the
later events of the other subprocess are not handled either. -/
theorem C8_launch_error_uncaught_witness :
    (wellFormed 0
        [ServerEvent.request ⟨"/a", "GET", [], ""⟩,
          ServerEvent.request ⟨"/b", "GET", [], ""⟩] = true ∧
      (∀ ev ∈ [ServerEvent.request ⟨"/a", "GET", [], ""⟩,
          ServerEvent.request ⟨"/b", "GET", [], ""⟩], ev.isError = false) ∧
      ∀ e ∈ subprocessEvents 0
        [ServerEvent.request ⟨"/a", "GET", [], ""⟩,
          ServerEvent.request ⟨"/b", "GET", [], ""⟩], e.isExit = false) ∧
      (serverRun Process.start
        ([ServerEvent.request ⟨"/a", "GET", [], ""⟩,
          ServerEvent.request ⟨"/b", "GET", [], ""⟩] ++
          ServerEvent.subprocess 0 (Event.spawnError "spawn python3 ENOENT") ::
          [ServerEvent.subprocess 1 (Event.stdoutData [66]),
            ServerEvent.subprocess 1 (Event.exit (some 0) none)])).1 =
        (serverRun Process.start
          [ServerEvent.request ⟨"/a", "GET", [], ""⟩,
            ServerEvent.request ⟨"/b", "GET", [], ""⟩]).1 ∧
      callsOn 0 (serverRun Process.start
        ([ServerEvent.request ⟨"/a", "GET", [], ""⟩,
          ServerEvent.request ⟨"/b", "GET", [], ""⟩] ++
          ServerEvent.subprocess 0 (Event.spawnError "spawn python3 ENOENT") ::
          [ServerEvent.subprocess 1 (Event.stdoutData [66]),
            ServerEvent.subprocess 1 (Event.exit (some 0) none)])).1 =
        dispatch (requestHandler ⟨"/a", "GET", [], ""⟩).2
          (subprocessEvents 0
            [ServerEvent.request ⟨"/a", "GET", [], ""⟩,
              ServerEvent.request ⟨"/b", "GET", [], ""⟩]) :=
  ⟨⟨by decide, by decide, by decide⟩,
   (C8_launch_error_uncaught
      [ServerEvent.request ⟨"/a", "GET", [], ""⟩, ServerEvent.request ⟨"/b", "GET", [], ""⟩]
      [ServerEvent.subprocess 1 (Event.stdoutData [66]),
        ServerEvent.subprocess 1 (Event.exit (some 0) none)]
      0 "spawn python3 ENOENT" ⟨"/a", "GET", [], ""⟩
      (by decide) (by decide) (by decide)).2.1,
   (C8_launch_error_uncaught
      [ServerEvent.request ⟨"/a", "GET", [], ""⟩, ServerEvent.request ⟨"/b", "GET", [], ""⟩]
      [ServerEvent.subprocess 1 (Event.stdoutData [66]),
        ServerEvent.subprocess 1 (Event.exit (some 0) none)]
      0 "spawn python3 ENOENT" ⟨"/a", "GET", [], ""⟩
      (by decide) (by decide) (by decide)).2.2.2.1⟩

end ScrabbleHelper
